import Mathlib

/-!
Shallow embedding of `src/rocksdb_benchmark.cpp` (RocksDB benchmark harness)
and proofs about its workloads.

Modelling conventions:
* Keys: the program renders keys as `"key_%08d" % i` (main run) and
  `"bulk_key_%08d" % i` (bulk-load run).  The two prefixes make the two
  families injective and mutually disjoint, which the inductive type `Key`
  mirrors; `renderKey` records the exact strings produced by `snprintf`.
* The engine (RocksDB) is modelled as a key-value map `Store := Key → Option String`;
  `DB::Write` applies a `WriteBatch` (a list of `Mut` mutations, puts and
  deletes, in order) and carries the `WriteOptions::sync` flag recorded in a
  `Commit`.  The `Status` returned by `DB::Write` is modelled by a status
  oracle `ok : Nat → Bool` (indexed by the number of commits issued so far):
  a failed commit leaves the store unchanged.  The C++ code discards this
  status everywhere.
* `rand()` is modelled by an oracle `rng : Nat → Nat` indexed by the number
  of `rand()` calls made so far inside the workload.
* C++ `for` loops are embedded as structurally recursive functions on an
  explicit iteration-count argument (the number of loop iterations still to
  run), so that every definition is executable by the kernel.
-/

namespace RocksBench

/-- Source constant `NUM_RECORDS = 1000000`. -/
def NUM_RECORDS : Nat := 1000000

/-- Source constant `BATCH_SIZE = 1000`. -/
def BATCH_SIZE : Nat := 1000

/-- Source constant `NUM_READS = 50000`. -/
def NUM_READS : Nat := 50000

/-- Source constant `NUM_UPDATES = 10000`. -/
def NUM_UPDATES : Nat := 10000

/-- Source constant `NUM_DELETES = 5000`. -/
def NUM_DELETES : Nat := 5000

/-- Keys of the benchmark.  `main i` is the key `"key_%08d" % i` used by the
main run; `bulk i` is `"bulk_key_%08d" % i` used only by the bulk-insert
workload.  The string prefixes are distinct, so the constructors model the
injective, disjoint rendering. -/
inductive Key where
  | main (i : Nat)
  | bulk (i : Nat)
deriving DecidableEq

/-- Zero padding as done by `snprintf` with `%08d` (width `w`). -/
def padNum (w n : Nat) : String :=
  let s := toString n
  String.mk (List.replicate (w - s.length) '0') ++ s

/-- The exact key strings produced by `snprintf` in the source. -/
def renderKey : Key → String
  | .main i => "key_" ++ padNum 8 i
  | .bulk i => "bulk_key_" ++ padNum 8 i

/-- The string `"value_%08d_with_some_additional_data_to_make_it_realistic" % i`
(sequential-writes payload). -/
def seqValue (i : Nat) : String :=
  "value_" ++ padNum 8 i ++ "_with_some_additional_data_to_make_it_realistic"

/-- The string `"updated_value_%08d" % idx` (random-updates payload). -/
def updatedValue (i : Nat) : String := "updated_value_" ++ padNum 8 i

/-- The string `"mixed_value_%08d" % idx` (mixed-workload payload). -/
def mixedValue (i : Nat) : String := "mixed_value_" ++ padNum 8 i

/-- The string `"bulk_value_%08d" % i` (bulk-insert payload). -/
def bulkValue (i : Nat) : String := "bulk_value_" ++ padNum 8 i

/-- A pending mutation of a `WriteBatch`: `batch.Put(key, value)` or
`batch.Delete(key)`. -/
inductive Mut where
  | put (k : Key) (v : String)
  | del (k : Key)
deriving DecidableEq

/-- The engine's key-value contents. -/
def Store := Key → Option String

/-- The store of a freshly created database (`DestroyDB` then `DB::Open`
with `create_if_missing`). -/
def emptyStore : Store := fun _ => none

/-- Effect of one mutation on the store. -/
def applyMut (s : Store) : Mut → Store
  | .put k v => fun q => if q = k then some v else s q
  | .del k => fun q => if q = k then none else s q

/-- Effect of committing a whole `WriteBatch`, mutations applied in order. -/
def applyBatch (s : Store) (b : List Mut) : Store := b.foldl applyMut s

/-- One `db->Write(write_opts, &batch)` call: the batch content and the
`WriteOptions::sync` flag it was issued with. -/
structure Commit where
  muts : List Mut
  sync : Bool
deriving DecidableEq

/-- Every commit in the list was issued with `sync = true`. -/
def allSync (cs : List Commit) : Bool := cs.all fun c => c.sync

theorem applyBatch_append (s : Store) (b : List Mut) (m : Mut) :
    applyBatch s (b ++ [m]) = applyMut (applyBatch s b) m := by
  simp [applyBatch]

/-! ### BENCHMARK 1: Sequential Writes (`bench_sequential_writes`)

```
for (i = 0; i < NUM_RECORDS; ) {
    WriteBatch batch;
    for (int j = 0; j < BATCH_SIZE && i < NUM_RECORDS; j++, i++) {
        batch.Put(key_i, value_i);
    }
    db->Write(write_opts, &batch);       // write_opts.sync = true, Status ignored
}
```
The inner loop builds a batch of `min BATCH_SIZE (NUM_RECORDS - i)` puts. -/

/-- The batch built by one inner-loop pass: puts for indices `i, …, i+cnt-1`
where `cnt = min B (N - i)`. -/
def seqBatch (i cnt : Nat) : List Mut :=
  (List.range cnt).map fun j => Mut.put (Key.main (i + j)) (seqValue (i + j))

/-- The outer loop of `bench_sequential_writes`, generalized over the record
count `N` and batch size `B` standing for the source's `NUM_RECORDS` /
`BATCH_SIZE`.  `fuel` bounds the number of outer iterations (the caller
passes `N`, enough for any `B ≥ 1`; for `B = 0` the C loop never terminates,
a case outside every claim).  `ok` is the status oracle of `db->Write`; the
code ignores the status and continues either way. -/
def seqWritesLoop (N B : Nat) (ok : Nat → Bool) :
    Nat → Nat → Store → List Commit → Store × List Commit
  | 0, _i, db, cs => (db, cs)
  | fuel + 1, i, db, cs =>
    if i < N then
      seqWritesLoop N B ok fuel (i + min B (N - i))
        (if ok cs.length then applyBatch db (seqBatch i (min B (N - i))) else db)
        (cs ++ [⟨seqBatch i (min B (N - i)), true⟩])
    else (db, cs)

/-- Whole `bench_sequential_writes` workload: final store and the list of
commits issued, in order. -/
def bench_sequential_writes (N B : Nat) (ok : Nat → Bool) (db : Store) :
    Store × List Commit :=
  seqWritesLoop N B ok N 0 db []

/-! ### Lemmas about the sequential-writes loop -/

theorem seqBatch_apply (cnt : Nat) : ∀ (i : Nat) (db : Store) (k : Key),
    applyBatch db (seqBatch i cnt) k =
      match k with
      | Key.main j => if i ≤ j ∧ j < i + cnt then some (seqValue j) else db k
      | Key.bulk _ => db k := by
  induction cnt with
  | zero =>
    intro i db k
    cases k with
    | main j =>
      show applyBatch db (seqBatch i 0) (Key.main j) =
        if i ≤ j ∧ j < i + 0 then some (seqValue j) else db (Key.main j)
      rw [if_neg (by omega)]
      rfl
    | bulk j => rfl
  | succ n ih =>
    intro i db k
    have hsplit : seqBatch i (n + 1) =
        seqBatch i n ++ [Mut.put (Key.main (i + n)) (seqValue (i + n))] := by
      simp [seqBatch, List.range_succ]
    rw [hsplit, applyBatch_append]
    cases k with
    | main j =>
      show (if Key.main j = Key.main (i + n) then some (seqValue (i + n))
            else applyBatch db (seqBatch i n) (Key.main j)) =
        if i ≤ j ∧ j < i + (n + 1) then some (seqValue j) else db (Key.main j)
      by_cases hj : j = i + n
      · subst hj
        rw [if_pos rfl, if_pos (by omega)]
      · have hne : Key.main j ≠ Key.main (i + n) := by
          intro h; injection h with h2; exact hj h2
        rw [if_neg hne, ih i db (Key.main j)]
        show (if i ≤ j ∧ j < i + n then some (seqValue j) else db (Key.main j)) = _
        by_cases h1 : i ≤ j ∧ j < i + n
        · rw [if_pos h1, if_pos (by omega)]
        · rw [if_neg h1, if_neg (by omega)]
    | bulk j =>
      show (if Key.bulk j = Key.main (i + n) then some (seqValue (i + n))
            else applyBatch db (seqBatch i n) (Key.bulk j)) = db (Key.bulk j)
      rw [if_neg (by intro h; cases h), ih i db (Key.bulk j)]

/-- Number of commits issued by the loop from position `i`:
`⌈(N - i) / B⌉` more than already accumulated, provided the fuel suffices. -/
theorem seqWritesLoop_trace_len (N B : Nat) (hB : 0 < B) (ok : Nat → Bool) :
    ∀ (fuel i : Nat) (db : Store) (cs : List Commit), N ≤ i + fuel * B →
      ((seqWritesLoop N B ok fuel i db cs).2).length =
        cs.length + (N - i + B - 1) / B := by
  intro fuel
  induction fuel with
  | zero =>
    intro i db cs hfuel
    have hNi : N - i = 0 := by omega
    show cs.length = cs.length + (N - i + B - 1) / B
    rw [hNi]
    have : (0 + B - 1) / B = 0 := Nat.div_eq_of_lt (by omega)
    omega
  | succ f ih =>
    intro i db cs hfuel
    by_cases hi : i < N
    · have hcnt : 1 ≤ min B (N - i) := by omega
      rw [seqWritesLoop, if_pos hi]
      rw [ih (i + min B (N - i)) _ _ (by rw [Nat.succ_mul] at hfuel; omega)]
      simp only [List.length_append, List.length_cons, List.length_nil]
      have harith : (N - i + B - 1) / B = 1 + (N - (i + min B (N - i)) + B - 1) / B := by
        by_cases hBle : B ≤ N - i
        · have h1 : min B (N - i) = B := by omega
          rw [h1]
          have h2 : N - i + B - 1 = (N - i - 1) + B := by omega
          have h3 : N - (i + B) + B - 1 = N - i - 1 := by omega
          rw [h2, h3, Nat.add_div_right _ hB]
          omega
        · have h1 : min B (N - i) = N - i := by omega
          rw [h1]
          have h2 : N - (i + (N - i)) = 0 := by omega
          rw [h2]
          have h3 : (N - i + B - 1) / B = 1 := by
            apply Nat.div_eq_of_lt_le (by omega)
            have : Nat.succ 1 * B = B + B := by rw [Nat.succ_mul]; omega
            omega
          have h4 : (0 + B - 1) / B = 0 := Nat.div_eq_of_lt (by omega)
          rw [h3, h4]
      omega
    · rw [seqWritesLoop, if_neg hi]
      show cs.length = cs.length + (N - i + B - 1) / B
      have hNi : N - i = 0 := by omega
      rw [hNi]
      have : (0 + B - 1) / B = 0 := Nat.div_eq_of_lt (by omega)
      omega

/-- The store after the loop (with every commit succeeding): keys
`main j` for `i ≤ j < N` hold `seqValue j`; everything else is untouched. -/
theorem seqWritesLoop_store (N B : Nat) (hB : 0 < B) :
    ∀ (fuel i : Nat) (db : Store) (cs : List Commit), N ≤ i + fuel * B →
      ∀ k, (seqWritesLoop N B (fun _ => true) fuel i db cs).1 k =
        match k with
        | Key.main j => if i ≤ j ∧ j < N then some (seqValue j) else db k
        | Key.bulk _ => db k := by
  intro fuel
  induction fuel with
  | zero =>
    intro i db cs hfuel k
    cases k with
    | main j =>
      show db (Key.main j) = if i ≤ j ∧ j < N then some (seqValue j) else db (Key.main j)
      rw [if_neg (by omega)]
    | bulk j => rfl
  | succ f ih =>
    intro i db cs hfuel k
    by_cases hi : i < N
    · have hcnt : 1 ≤ min B (N - i) := by omega
      rw [seqWritesLoop, if_pos hi]
      rw [if_pos rfl]
      rw [ih (i + min B (N - i)) _ _ (by rw [Nat.succ_mul] at hfuel; omega) k]
      cases k with
      | main j =>
        show (if i + min B (N - i) ≤ j ∧ j < N then some (seqValue j)
              else applyBatch db (seqBatch i (min B (N - i))) (Key.main j)) =
          if i ≤ j ∧ j < N then some (seqValue j) else db (Key.main j)
        by_cases h1 : i + min B (N - i) ≤ j ∧ j < N
        · rw [if_pos h1, if_pos (by omega)]
        · rw [if_neg h1, seqBatch_apply]
          show (if i ≤ j ∧ j < i + min B (N - i) then some (seqValue j) else db (Key.main j)) = _
          by_cases h2 : i ≤ j ∧ j < i + min B (N - i)
          · rw [if_pos h2, if_pos (by omega)]
          · rw [if_neg h2, if_neg (by omega)]
      | bulk j =>
        show applyBatch db (seqBatch i (min B (N - i))) (Key.bulk j) = db (Key.bulk j)
        rw [seqBatch_apply]
    · rw [seqWritesLoop, if_neg hi]
      cases k with
      | main j =>
        show db (Key.main j) = if i ≤ j ∧ j < N then some (seqValue j) else db (Key.main j)
        rw [if_neg (by omega)]
      | bulk j => rfl

/-! ### BENCHMARK 2: Random Reads (`bench_random_reads`)

```
for (i = 0; i < NUM_READS; i++) {
    int idx = rand() % NUM_RECORDS;
    db->Get(read_opts, key_idx, &value);     // Status ignored; miss is fine
}
```
`n` counts the iterations still to run, `t` the `rand()` calls made. -/
def randomReadsLoop (N : Nat) (rng : Nat → Nat) : Nat → Nat → Store → Store
  | 0, _t, db => db
  | n + 1, t, db =>
    let _value := db (Key.main (rng t % N))
    randomReadsLoop N rng n (t + 1) db

/-- Whole `bench_random_reads` workload: the engine state it leaves behind. -/
def bench_random_reads (N count : Nat) (rng : Nat → Nat) (db : Store) : Store :=
  randomReadsLoop N rng count 0 db

/-! ### BENCHMARK 3: Sequential Scan (`bench_sequential_scan`)

```
Iterator* it = db->NewIterator(read_opts);
for (it->SeekToFirst(); it->Valid(); it->Next()) { key; value; count++; }
```
The iterator's yield sequence is modelled by the list `entries` of key/value
pairs the engine produces for the scan; the loop only reads them and counts. -/
def scanLoop (db : Store) : List (Key × String) → Nat → Store × Nat
  | [], count => (db, count)
  | e :: rest, count =>
    let _key := e.1
    let _value := e.2
    scanLoop db rest (count + 1)

/-- Whole `bench_sequential_scan` workload: final engine state and the visited-entry count
reported by `print_result`. -/
def bench_sequential_scan (db : Store) (entries : List (Key × String)) :
    Store × Nat :=
  scanLoop db entries 0

/-! ### BENCHMARK 4: Random Updates (`bench_random_updates`)

All `NUM_UPDATES` puts accumulate in one `WriteBatch`; a single
`db->Write(write_opts, &batch)` with `sync = true` commits it
(Status ignored). -/
def updatesBatch (N count : Nat) (rng : Nat → Nat) : List Mut :=
  (List.range count).map fun t =>
    Mut.put (Key.main (rng t % N)) (updatedValue (rng t % N))

/-- Whole `bench_random_updates` workload: final store and the single commit issued. -/
def bench_random_updates (N count : Nat) (rng : Nat → Nat) (ok : Nat → Bool)
    (db : Store) : Store × List Commit :=
  ((if ok 0 then applyBatch db (updatesBatch N count rng) else db),
    [⟨updatesBatch N count rng, true⟩])

/-! ### BENCHMARK 5: Random Deletes (`bench_random_deletes`)

All `NUM_DELETES` deletes accumulate in one `WriteBatch`; one
`db->Write(write_opts, &batch)` with `sync = true` (Status ignored).
Deleting an absent key is a no-op. -/
def deletesBatch (N count : Nat) (rng : Nat → Nat) : List Mut :=
  (List.range count).map fun t => Mut.del (Key.main (rng t % N))

/-- Whole `bench_random_deletes` workload: final store and the single commit issued. -/
def bench_random_deletes (N count : Nat) (rng : Nat → Nat) (ok : Nat → Bool)
    (db : Store) : Store × List Commit :=
  ((if ok 0 then applyBatch db (deletesBatch N count rng) else db),
    [⟨deletesBatch N count rng, true⟩])

/-! ### BENCHMARK 6: Exists Checks (`bench_exists_checks`)

Same loop shape as random reads: `db->Get` on a random key, `Status`
inspected for nothing (RocksDB has no pure existence probe). -/
def existsChecksLoop (N : Nat) (rng : Nat → Nat) : Nat → Nat → Store → Store
  | 0, _t, db => db
  | n + 1, t, db =>
    let _status := (db (Key.main (rng t % N))).isSome
    existsChecksLoop N rng n (t + 1) db

/-- Whole `bench_exists_checks` workload: the engine state it leaves behind. -/
def bench_exists_checks (N count : Nat) (rng : Nat → Nat) (db : Store) : Store :=
  existsChecksLoop N rng count 0 db

/-! ### BENCHMARK 7: Mixed Workload (`bench_mixed_workload`)

```
int total_ops = 20000;
WriteBatch batch;
for (i = 0; i < total_ops; i++) {
    int idx = rand() % NUM_RECORDS;
    int op = rand() % 100;
    if (op < 70)      db->Get(read_opts, key_idx, &val);        // read, immediate
    else if (op < 90) batch.Put(key_idx, mixed_value_idx);       // write, batched
    else              batch.Delete(key_idx);                     // delete, batched
    if (batch.Count() > 100) { db->Write(write_opts, &batch); batch.Clear(); }
}
if (batch.Count() > 0) db->Write(write_opts, &batch);
```
Each iteration makes two `rand()` calls: `rng (2*i)` for `idx`,
`rng (2*i+1)` for `op`. -/
structure MixedState where
  store : Store
  batch : List Mut
  trace : List Commit

/-- The mutation (if any) that iteration `i` of the mixed loop appends to the
shared batch: none for a read (`op < 70`), a put for `70 ≤ op < 90`, a
delete for `90 ≤ op`. -/
def mixedOpMut (N : Nat) (rng : Nat → Nat) (i : Nat) : Option Mut :=
  if rng (2 * i + 1) % 100 < 70 then none
  else if rng (2 * i + 1) % 100 < 90 then
    some (Mut.put (Key.main (rng (2 * i) % N)) (mixedValue (rng (2 * i) % N)))
  else some (Mut.del (Key.main (rng (2 * i) % N)))

/-- All mutations the mixed workload generates over `total` iterations, in
order (its reads generate none). -/
def mixedMuts (N : Nat) (rng : Nat → Nat) (total : Nat) : List Mut :=
  (List.range total).filterMap (mixedOpMut N rng)

/-- One iteration of the mixed loop body before the flush check: a read
leaves the state alone (after a `db->Get` on the store), a write/delete
appends to the shared batch. -/
def mixedOpStep (N : Nat) (rng : Nat → Nat) (i : Nat) (st : MixedState) :
    MixedState :=
  match mixedOpMut N rng i with
  | none =>
    let _val := st.store (Key.main (rng (2 * i) % N))
    st
  | some m => { st with batch := st.batch ++ [m] }

/-- The flush check run after every iteration:
`if (batch.Count() > 100) { db->Write(write_opts, &batch); batch.Clear(); }`
(`sync = true`, Status from the oracle `ok` ignored). -/
def mixedFlushCheck (ok : Nat → Bool) (st : MixedState) : MixedState :=
  if 100 < st.batch.length then
    { store := if ok st.trace.length then applyBatch st.store st.batch else st.store
      batch := []
      trace := st.trace ++ [⟨st.batch, true⟩] }
  else st

/-- The mixed workload's `for` loop; `fuel` counts the iterations still to
run (the caller passes `total`), `i` is the loop variable. -/
def mixedLoop (N total : Nat) (rng : Nat → Nat) (ok : Nat → Bool) :
    Nat → Nat → MixedState → MixedState
  | 0, _i, st => st
  | fuel + 1, i, st =>
    if i < total then
      mixedLoop N total rng ok fuel (i + 1) (mixedFlushCheck ok (mixedOpStep N rng i st))
    else st

/-- Whole `bench_mixed_workload` workload: the loop over `total` ops followed by the final
`if (batch.Count() > 0) db->Write(write_opts, &batch);` flush. -/
def bench_mixed_workload (N total : Nat) (rng : Nat → Nat) (ok : Nat → Bool)
    (db : Store) : MixedState :=
  match mixedLoop N total rng ok total 0 ⟨db, [], []⟩ with
  | st =>
    if 0 < st.batch.length then
      { store := if ok st.trace.length then applyBatch st.store st.batch else st.store
        batch := []
        trace := st.trace ++ [⟨st.batch, true⟩] }
    else st

/-! ### BENCHMARK 8: Bulk Insert (`bench_bulk_insert`)

Opens its own engine at `"benchmark_bulk_rocksdb"`; on open failure it
prints `"Failed to open database for bulk insert"` and returns (the harness
run continues).  Otherwise all `NUM_RECORDS` puts with the `bulk_` key
prefix accumulate in one batch, committed by a single
`db->Write(write_opts, &batch)` with `sync = true` (Status ignored); the
engine is then closed and destroyed. -/
def bulkBatch (N : Nat) : List Mut :=
  (List.range N).map fun i => Mut.put (Key.bulk i) (bulkValue i)

/-- Whole `bench_bulk_insert` workload: `none` when the bulk engine fails to open (the
workload is skipped with a diagnostic); otherwise the throwaway engine's
final store and the single commit issued. -/
def bench_bulk_insert (N : Nat) (openOk : Bool) (ok : Nat → Bool) :
    Option (Store × List Commit) :=
  if openOk then
    some ((if ok 0 then applyBatch emptyStore (bulkBatch N) else emptyStore),
      [⟨bulkBatch N, true⟩])
  else none

/-! ## Claim C1 -/

/-- C1: for every `N ≥ 1` and `B ≥ 1`, the sequential-load workload issues
exactly `⌈N/B⌉` batch commits (the short final batch included), and when run
on a fresh engine it leaves exactly the `N` distinct keys
`key_00000000 … key_(N-1)` present. -/
theorem seq_load_commits_and_present_keys (N B : Nat) (_hN : 1 ≤ N) (hB : 1 ≤ B) :
    ((bench_sequential_writes N B (fun _ => true) emptyStore).2).length =
      (N + B - 1) / B ∧
    {k | ((bench_sequential_writes N B (fun _ => true) emptyStore).1 k).isSome} =
      ↑((Finset.range N).image Key.main) ∧
    ((Finset.range N).image Key.main).card = N := by
  have hfuel : N ≤ 0 + N * B := by
    have := Nat.le_mul_of_pos_right N hB
    omega
  refine ⟨?_, ?_, ?_⟩
  · have h := seqWritesLoop_trace_len N B hB (fun _ => true) N 0 emptyStore [] hfuel
    simpa [bench_sequential_writes] using h
  · ext k
    have hst := seqWritesLoop_store N B hB N 0 emptyStore [] hfuel k
    simp only [Set.mem_setOf_eq, Finset.coe_image, Set.mem_image, Finset.mem_coe,
      Finset.mem_range, bench_sequential_writes]
    rw [hst]
    cases k with
    | main j =>
      constructor
      · intro h
        by_cases hj : 0 ≤ j ∧ j < N
        · exact ⟨j, hj.2, rfl⟩
        · rw [show ((match Key.main j with
              | Key.main j => if 0 ≤ j ∧ j < N then some (seqValue j)
                else emptyStore (Key.main j)
              | Key.bulk _ => emptyStore (Key.main j))) =
              (if 0 ≤ j ∧ j < N then some (seqValue j) else emptyStore (Key.main j))
              from rfl, if_neg hj] at h
          simp [emptyStore] at h
      · rintro ⟨a, ha, hk⟩
        injection hk with h2
        subst h2
        show (if 0 ≤ a ∧ a < N then some (seqValue a) else emptyStore (Key.main a)).isSome
        rw [if_pos ⟨Nat.zero_le _, ha⟩]
        rfl
    | bulk j =>
      constructor
      · intro h
        simp [emptyStore] at h
      · rintro ⟨a, ha, hk⟩
        cases hk
  · rw [Finset.card_image_of_injective _ fun a b h => by injection h]
    exact Finset.card_range N

/-- Witness for C1 at `N = 3`, `B = 2`: hypotheses hold and the workload
issues `⌈3/2⌉ = 2` commits. -/
theorem seq_load_commits_and_present_keys_witness :
    (1 ≤ 3 ∧ 1 ≤ 2) ∧
      ((bench_sequential_writes 3 2 (fun _ => true) emptyStore).2).length = 2 :=
  ⟨⟨by decide, by decide⟩,
    (seq_load_commits_and_present_keys 3 2 (by decide) (by decide)).1⟩

/-! ## Claim C2 -/

theorem seqWritesLoop_allSync (N B : Nat) (ok : Nat → Bool) :
    ∀ (fuel i : Nat) (db : Store) (cs : List Commit), allSync cs = true →
      allSync (seqWritesLoop N B ok fuel i db cs).2 = true := by
  intro fuel
  induction fuel with
  | zero => intro i db cs h; exact h
  | succ f ih =>
    intro i db cs h
    by_cases hi : i < N
    · rw [seqWritesLoop, if_pos hi]
      apply ih
      simp only [allSync, List.all_append, List.all_cons, List.all_nil] at h ⊢
      simp [h]
    · rw [seqWritesLoop, if_neg hi]; exact h

theorem mixedLoop_allSync (N total : Nat) (rng : Nat → Nat) (ok : Nat → Bool) :
    ∀ (fuel i : Nat) (st : MixedState), allSync st.trace = true →
      allSync (mixedLoop N total rng ok fuel i st).trace = true := by
  intro fuel
  induction fuel with
  | zero => intro i st h; exact h
  | succ f ih =>
    intro i st h
    by_cases hi : i < total
    · rw [mixedLoop, if_pos hi]
      apply ih
      have hstep : (mixedOpStep N rng i st).trace = st.trace := by
        rw [mixedOpStep]
        cases mixedOpMut N rng i with
        | none => rfl
        | some m => rfl
      rw [mixedFlushCheck]
      by_cases hb : 100 < (mixedOpStep N rng i st).batch.length
      · rw [if_pos hb]
        simp only [allSync, List.all_append, List.all_cons, List.all_nil, hstep]
        simp only [allSync] at h
        simp [h]
      · rw [if_neg hb, hstep]; exact h
    · rw [mixedLoop, if_neg hi]; exact h

/-- C2: every batch commit of every workload — sequential load, random
update, random delete, each periodic and final flush of the mixed workload,
and the bulk load — is issued with `sync = true` (synchronous durability);
no commit anywhere uses buffered durability. -/
theorem all_commits_sync (N B cu cd total : Nat) (ok1 ok2 ok3 ok4 ok5 : Nat → Bool)
    (rngU rngD rngM : Nat → Nat) (db0 db1 db2 db3 : Store) (bOpen : Bool) :
    allSync (bench_sequential_writes N B ok1 db0).2 = true ∧
    allSync (bench_random_updates N cu rngU ok2 db1).2 = true ∧
    allSync (bench_random_deletes N cd rngD ok3 db2).2 = true ∧
    allSync (bench_mixed_workload N total rngM ok4 db3).trace = true ∧
    allSync ((bench_bulk_insert N bOpen ok5).elim [] Prod.snd) = true := by
  refine ⟨?_, ?_, ?_, ?_, ?_⟩
  · exact seqWritesLoop_allSync N B ok1 N 0 db0 [] rfl
  · rfl
  · rfl
  · have h := mixedLoop_allSync N total rngM ok4 total 0 ⟨db3, [], []⟩ rfl
    rw [bench_mixed_workload]
    by_cases hb : 0 < (mixedLoop N total rngM ok4 total 0 ⟨db3, [], []⟩).batch.length
    · rw [if_pos hb]
      simp only [allSync, List.all_append, List.all_cons, List.all_nil]
      simp only [allSync] at h
      simp [h]
    · rw [if_neg hb]; exact h
  · cases bOpen with
    | false => rfl
    | true => rfl

/-! ## Claim C3 -/

/-- Counterexample to C3: run the sequential load with `N = 2`, `B = 1`
against an engine whose first commit fails (status oracle true only for
commit index `> 0`).  The workload does not abort: it issues the second
commit anyway and finishes with key 0 absent (the failed batch's state
lost) and key 1 present — the failure was silently swallowed and execution
continued on known-bad state. -/
theorem commit_failure_swallowed_cex :
    (fun k => decide (0 < k)) 0 = false ∧
    ((bench_sequential_writes 2 1 (fun k => decide (0 < k)) emptyStore).2).length = 2 ∧
    (bench_sequential_writes 2 1 (fun k => decide (0 < k)) emptyStore).1 (Key.main 0) =
      none ∧
    (bench_sequential_writes 2 1 (fun k => decide (0 < k)) emptyStore).1 (Key.main 1) =
      some (seqValue 1) := by
  refine ⟨rfl, rfl, rfl, rfl⟩

theorem seqWritesLoop_trace_status_irrel (N B : Nat) (ok ok' : Nat → Bool) :
    ∀ (fuel i : Nat) (db db' : Store) (cs : List Commit),
      (seqWritesLoop N B ok fuel i db cs).2 = (seqWritesLoop N B ok' fuel i db' cs).2 := by
  intro fuel
  induction fuel with
  | zero => intro i db db' cs; rfl
  | succ f ih =>
    intro i db db' cs
    by_cases hi : i < N
    · rw [seqWritesLoop, seqWritesLoop, if_pos hi, if_pos hi]
      exact ih _ _ _ _
    · rw [seqWritesLoop, seqWritesLoop, if_neg hi, if_neg hi]

theorem mixedLoop_trace_status_irrel (N total : Nat) (rng : Nat → Nat)
    (ok ok' : Nat → Bool) :
    ∀ (fuel i : Nat) (st st' : MixedState), st.batch = st'.batch →
      st.trace = st'.trace →
      (mixedLoop N total rng ok fuel i st).batch =
        (mixedLoop N total rng ok' fuel i st').batch ∧
      (mixedLoop N total rng ok fuel i st).trace =
        (mixedLoop N total rng ok' fuel i st').trace := by
  intro fuel
  induction fuel with
  | zero => intro i st st' hb ht; exact ⟨hb, ht⟩
  | succ f ih =>
    intro i st st' hb ht
    by_cases hi : i < total
    · rw [mixedLoop, mixedLoop, if_pos hi, if_pos hi]
      apply ih
      · rw [mixedFlushCheck, mixedFlushCheck, mixedOpStep, mixedOpStep]
        cases mixedOpMut N rng i with
        | none =>
          simp only [hb, ht]
          by_cases h100 : 100 < st'.batch.length
          · rw [if_pos h100, if_pos h100]
          · rw [if_neg h100, if_neg h100, hb]
        | some m =>
          simp only [hb, ht]
          by_cases h100 : 100 < (st'.batch ++ [m]).length
          · rw [if_pos h100, if_pos h100]
          · rw [if_neg h100, if_neg h100]
      · rw [mixedFlushCheck, mixedFlushCheck, mixedOpStep, mixedOpStep]
        cases mixedOpMut N rng i with
        | none =>
          simp only [hb, ht]
          by_cases h100 : 100 < st'.batch.length
          · rw [if_pos h100, if_pos h100]
          · rw [if_neg h100, if_neg h100, ht]
        | some m =>
          simp only [hb, ht]
          by_cases h100 : 100 < (st'.batch ++ [m]).length
          · rw [if_pos h100, if_pos h100]
          · rw [if_neg h100, if_neg h100]
    · rw [mixedLoop, mixedLoop, if_neg hi, if_neg hi]
      exact ⟨hb, ht⟩

/-- C3 amended: commit status is discarded everywhere.  Each workload issues
the same sequence of commits whatever statuses the engine returns — a
failing commit is silently swallowed and execution continues exactly as in
an all-success run (no abort, no diagnostic). -/
theorem commit_status_never_consulted (N B cu cd total : Nat)
    (rngU rngD rngM : Nat → Nat) (db : Store) (ok ok' : Nat → Bool) :
    (bench_sequential_writes N B ok db).2 = (bench_sequential_writes N B ok' db).2 ∧
    (bench_random_updates N cu rngU ok db).2 =
      (bench_random_updates N cu rngU ok' db).2 ∧
    (bench_random_deletes N cd rngD ok db).2 =
      (bench_random_deletes N cd rngD ok' db).2 ∧
    (bench_mixed_workload N total rngM ok db).trace =
      (bench_mixed_workload N total rngM ok' db).trace ∧
    ∀ b, (bench_bulk_insert N b ok).map Prod.snd =
      (bench_bulk_insert N b ok').map Prod.snd := by
  refine ⟨?_, rfl, rfl, ?_, ?_⟩
  · exact seqWritesLoop_trace_status_irrel N B ok ok' N 0 db db []
  · have h := mixedLoop_trace_status_irrel N total rngM ok ok' total 0
      ⟨db, [], []⟩ ⟨db, [], []⟩ rfl rfl
    rw [bench_mixed_workload, bench_mixed_workload]
    rw [h.1, h.2]
    by_cases hb : 0 < (mixedLoop N total rngM ok' total 0 ⟨db, [], []⟩).batch.length
    · rw [if_pos hb, if_pos hb]
    · rw [if_neg hb, if_neg hb]
      exact h.2
  · intro b
    cases b with
    | false => rfl
    | true => rfl

/-! ### `main`: control flow, exit status, and memory bookkeeping

```
mem_start = get_memory_usage();                      // sample 0
DestroyDB(DB_FILE, options);
status = DB::Open(options, DB_FILE, &db);
if (!status.ok()) { fprintf(stderr, "Failed to open RocksDB: ..."); return 1; }
mem_after_open = get_memory_usage();                 // sample 1
total_start = get_time();
mem_peak = mem_after_open;
bench_sequential_writes(db);
mem_after_writes = get_memory_usage();               // sample 2
if (mem_after_writes > mem_peak) mem_peak = mem_after_writes;
bench_random_reads(db);
mem_after_reads = get_memory_usage();                // sample 3
if (mem_after_reads > mem_peak) mem_peak = mem_after_reads;
bench_sequential_scan(db); bench_random_updates(db); bench_random_deletes(db);
bench_exists_checks(db); bench_mixed_workload(db);
mem_end = get_memory_usage();                        // sample 4
if (mem_end > mem_peak) mem_peak = mem_end;
... ticker stats, GetProperty section, delete db ...
bench_bulk_insert();      // open failure there prints a diagnostic and returns
total_end = get_time();
... SUMMARY: total time, Initial/Final/Peak/Delta memory ...
DestroyDB(DB_FILE, options);
return 0;
```
The memory sampler `get_memory_usage` (reads `/proc/self/status`, 0 when
unavailable) is modelled as an oracle `mem : Nat → Nat` giving the value of
each successive sample; the two `DB::Open` outcomes are the booleans
`openMainOk` / `openBulkOk`.  The model assumes the `GetProperty` section
returns numeric values (its failure mode is treated separately with
`memStatsSection`). -/

/-- Observable outcome of one harness run (`main`). -/
structure RunReport where
  exitCode : Nat
  mainDiagnostic : Bool
  bulkDiagnostic : Bool
  summaryPrinted : Bool
  bulkResultPrinted : Bool
  mainOpenCalls : Nat
  bulkOpenCalls : Nat
  memInitial : Option Nat
  memFinal : Option Nat
  memPeak : Option Nat
deriving DecidableEq

/-- Shallow embedding of `main`'s control flow (see the block comment
above). -/
def mainRun (openMainOk openBulkOk : Bool) (mem : Nat → Nat) : RunReport :=
  let mem_start := mem 0
  if openMainOk then
    let mem_after_open := mem 1
    let mem_peak0 := mem_after_open
    let mem_after_writes := mem 2
    let mem_peak1 := if mem_after_writes > mem_peak0 then mem_after_writes else mem_peak0
    let mem_after_reads := mem 3
    let mem_peak2 := if mem_after_reads > mem_peak1 then mem_after_reads else mem_peak1
    let mem_end := mem 4
    let mem_peak := if mem_end > mem_peak2 then mem_end else mem_peak2
    { exitCode := 0
      mainDiagnostic := false
      bulkDiagnostic := !openBulkOk
      summaryPrinted := true
      bulkResultPrinted := openBulkOk
      mainOpenCalls := 1
      bulkOpenCalls := 1
      memInitial := some mem_start
      memFinal := some mem_end
      memPeak := some mem_peak }
  else
    { exitCode := 1
      mainDiagnostic := true
      bulkDiagnostic := false
      summaryPrinted := false
      bulkResultPrinted := false
      mainOpenCalls := 1
      bulkOpenCalls := 0
      memInitial := none
      memFinal := none
      memPeak := none }

/-! ## Claim C4 -/

/-- Counterexample to C4: when the bulk-load engine's open fails (main
engine fine), the run does not abort with a non-zero exit and no report —
`bench_bulk_insert` prints its diagnostic and returns, and the harness goes
on to print the full summary and exit 0. -/
theorem bulk_open_failure_run_continues_cex :
    (mainRun true false (fun _ => 0)).exitCode = 0 ∧
    (mainRun true false (fun _ => 0)).summaryPrinted = true ∧
    (mainRun true false (fun _ => 0)).bulkDiagnostic = true ∧
    (mainRun true false (fun _ => 0)).bulkResultPrinted = false := by
  refine ⟨rfl, rfl, rfl, rfl⟩

/-- C4 amended: a *main*-engine open failure aborts the run with a
diagnostic, exit status 1, no summary, and no retry (one open call); a
*bulk-load*-engine open failure only prints a diagnostic and skips the bulk
workload — the run still prints the summary and exits 0 (again without
retrying the open). -/
theorem open_failure_behavior (ob : Bool) (mem : Nat → Nat) :
    (mainRun false ob mem).exitCode = 1 ∧
    (mainRun false ob mem).mainDiagnostic = true ∧
    (mainRun false ob mem).summaryPrinted = false ∧
    (mainRun false ob mem).mainOpenCalls = 1 ∧
    (mainRun false ob mem).bulkOpenCalls = 0 ∧
    (mainRun true false mem).bulkDiagnostic = true ∧
    (mainRun true false mem).exitCode = 0 ∧
    (mainRun true false mem).summaryPrinted = true ∧
    (mainRun true false mem).bulkResultPrinted = false ∧
    (mainRun true false mem).bulkOpenCalls = 1 := by
  refine ⟨rfl, rfl, rfl, rfl, rfl, rfl, rfl, rfl, rfl, rfl⟩

/-! ## Claim C9 -/

/-- Counterexample to C9: the initial sample is *not* part of the peak
computation (`mem_peak` starts at `mem_after_open`).  With samples
`initial = 10` and every later sample `0`, the summary reports
`peak = 0 < 10 = initial`, violating `peak ≥ max(initial, final)`. -/
theorem peak_below_initial_cex :
    (mainRun true true (fun t => if t = 0 then 10 else 0)).memInitial = some 10 ∧
    (mainRun true true (fun t => if t = 0 then 10 else 0)).memFinal = some 0 ∧
    (mainRun true true (fun t => if t = 0 then 10 else 0)).memPeak = some 0 ∧
    ¬ (0 ≥ max 10 0) := by
  refine ⟨rfl, rfl, rfl, by decide⟩

/-- C9 amended: the reported peak is the maximum of the samples taken after
open, after sequential writes, after random reads, and after the last main
workload — so `peak ≥ max(after-open, final)` always holds, but the initial
(pre-open) sample does not participate and `peak ≥ initial` can fail. -/
theorem peak_ge_after_open_and_final (ob : Bool) (mem : Nat → Nat) :
    (mainRun true ob mem).memPeak.getD 0 ≥ (mainRun true ob mem).memFinal.getD 0 ∧
    (mainRun true ob mem).memPeak.getD 0 ≥ mem 1 := by
  constructor
  · simp only [mainRun]
    split_ifs <;> simp_all
  · simp only [mainRun]
    split_ifs <;> simp_all <;> omega

/-! ## Claim C5

`total_start = get_time()` is taken right before `bench_sequential_writes`
and `total_end = get_time()` right after `bench_bulk_insert()` returns;
the summary prints `total_end - total_start`.  The model assigns each phase
executed between the two samples a duration. -/

/-- Durations of the successive phases of `main` between `total_start` and
`total_end`, in order of execution.  `statsAndMainClose` covers the ticker
statistics printing, the three `GetProperty` queries, and `delete db`;
`bulkOpen`, `bulkWork` (batch build + single commit) and `bulkCloseDestroy`
(`delete db; DestroyDB(...)`) happen inside `bench_bulk_insert`. -/
structure PhaseDurations where
  seqWrites : Nat
  randomReads : Nat
  seqScan : Nat
  randomUpdates : Nat
  randomDeletes : Nat
  existsChecks : Nat
  mixedWorkload : Nat
  statsAndMainClose : Nat
  bulkOpen : Nat
  bulkWork : Nat
  bulkCloseDestroy : Nat
deriving DecidableEq

/-- The difference `total_end - total_start` as printed by the summary: every phase between
the two `get_time()` calls contributes, including the bulk-load engine's own
open, close and destroy. -/
def reportedTotalTime (d : PhaseDurations) : Nat :=
  d.seqWrites + d.randomReads + d.seqScan + d.randomUpdates + d.randomDeletes +
    d.existsChecks + d.mixedWorkload + d.statsAndMainClose + d.bulkOpen +
    d.bulkWork + d.bulkCloseDestroy

/-- Formalizes the claim's words, for comparison with `reportedTotalTime`:
the span from the start of the first workload to the end of the last
workload, minus the isolated bulk-load engine's own open and close/destroy
time. -/
def claimedTotalTime (d : PhaseDurations) : Nat :=
  d.seqWrites + d.randomReads + d.seqScan + d.randomUpdates + d.randomDeletes +
    d.existsChecks + d.mixedWorkload + d.statsAndMainClose + d.bulkWork

/-- Counterexample to C5: with the bulk engine's open taking 7 units and its
close/destroy 3 (all else instantaneous), the summary reports 10, not the 0
the claim's excluded span gives. -/
theorem total_time_includes_bulk_engine_cex :
    reportedTotalTime ⟨0, 0, 0, 0, 0, 0, 0, 0, 7, 0, 3⟩ = 10 ∧
    claimedTotalTime ⟨0, 0, 0, 0, 0, 0, 0, 0, 7, 0, 3⟩ = 0 := by
  refine ⟨rfl, rfl⟩

/-- C5 amended: the reported total spans from just before the first workload
to just after `bench_bulk_insert` returns, so it *includes* the bulk-load
engine's own open and close/destroy time (exceeding the claim's span by
exactly those two durations). -/
theorem reported_total_time_decomposition (d : PhaseDurations) :
    reportedTotalTime d = claimedTotalTime d + d.bulkOpen + d.bulkCloseDestroy := by
  rw [reportedTotalTime, claimedTotalTime]
  omega

/-! ## Claim C6

```
std::string mem_usage;
db->GetProperty("rocksdb.estimate-table-readers-mem", &mem_usage);  // bool ignored
uint64_t table_readers_mem = std::stoull(mem_usage);
db->GetProperty("rocksdb.cur-size-all-mem-tables", &mem_usage);
uint64_t memtable_mem = std::stoull(mem_usage);
db->GetProperty("rocksdb.block-cache-usage", &mem_usage);
uint64_t cache_mem = std::stoull(mem_usage);
```
`GetProperty` is modelled as an oracle `getProp : String → Option String`
(`none` = unsupported / no value, in which case the output string is left
untouched).  `std::stoull` on a string with no digits throws
`std::invalid_argument`, modelled as `Except.error`. -/

/-- Model of `std::stoull` on the decimal strings RocksDB property queries produce:
the parsed value, or a thrown `std::invalid_argument` when the string holds
no number (in particular when it is empty). -/
def stoull (s : String) : Except Unit Nat :=
  if s.data ≠ [] ∧ s.data.all Char.isDigit = true then
    Except.ok (s.data.foldl (fun n c => n * 10 + (c.toNat - '0'.toNat)) 0)
  else Except.error ()

/-- The internal-memory-statistics section of `main`: three `GetProperty`
calls into the same `mem_usage` buffer, each followed by an unguarded
`std::stoull`.  Returns the three parsed figures, or the first uncaught
exception. -/
def memStatsSection (getProp : String → Option String) :
    Except Unit (Nat × Nat × Nat) := do
  let mem_usage0 := ""
  let mem_usage1 := (getProp "rocksdb.estimate-table-readers-mem").getD mem_usage0
  let table_readers_mem ← stoull mem_usage1
  let mem_usage2 := (getProp "rocksdb.cur-size-all-mem-tables").getD mem_usage1
  let memtable_mem ← stoull mem_usage2
  let mem_usage3 := (getProp "rocksdb.block-cache-usage").getD mem_usage2
  let cache_mem ← stoull mem_usage3
  return (table_readers_mem, memtable_mem, cache_mem)

/-- C6 is right about the intent but the code fails it: on an engine that
does not expose the memory properties (`GetProperty` returns no value), the
never-assigned `mem_usage` buffer is passed to `std::stoull`, which throws —
the run dies instead of degrading to zero/unknown.  (With numeric values
supplied the section returns them fine.) -/
theorem stats_query_unsupported_throws :
    memStatsSection (fun _ => none) = Except.error () ∧
    memStatsSection (fun _ => some "12345") = Except.ok (12345, 12345, 12345) := by
  refine ⟨rfl, rfl⟩

/-! ## Claim C7

```
static void print_result(const char *test, double elapsed, int ops) {
    double ops_per_sec = ops / elapsed;
    char buf[32];
    format_number((long long)ops_per_sec, buf, sizeof(buf));
    printf(...);
}
```
Doubles are modelled as exact rationals; the `(long long)` cast truncates
(floor, for the non-negative values every call site produces). -/

/-- Source `format_number`: digit grouping with commas, exactly the three `snprintf`
cases of the source (`%03lld` zero-pads to width 3).  The source takes a
`long long`; every harness call passes a non-negative count or rate. -/
def format_number (num : Nat) : String :=
  if num ≥ 1000000 then
    toString (num / 1000000) ++ "," ++ padNum 3 ((num / 1000) % 1000) ++ "," ++
      padNum 3 (num % 1000)
  else if num ≥ 1000 then
    toString (num / 1000) ++ "," ++ padNum 3 (num % 1000)
  else
    toString num

/-- The throughput field `print_result` prints: `ops / elapsed` computed
unconditionally and formatted — there is no `ops == 0` special case and no
"n/a" branch anywhere in the function. -/
def print_result_ops_field (elapsed : ℚ) (ops : Nat) : String :=
  format_number (Int.toNat ⌊(ops : ℚ) / elapsed⌋) ++ " ops/sec"

/-- Counterexample to C7: at `ops = 0` (elapsed 2) `print_result` does not
skip the division and report "n/a"; it performs the division and prints
`0 ops/sec`. -/
theorem zero_ops_prints_zero_not_na_cex :
    print_result_ops_field 2 0 = "0 ops/sec" ∧ "0 ops/sec" ≠ "n/a" := by
  constructor
  · have h0 : ((0 : Nat) : ℚ) / 2 = 0 := by norm_num
    rw [print_result_ops_field, h0, Int.floor_zero]
    rfl
  · decide

/-- C7 amended: `print_result` always computes `ops / elapsed` (a float
division that cannot trap); with a zero op count and positive elapsed time
it reports `0 ops/sec`, never "n/a". -/
theorem zero_ops_division_result (e : ℚ) (_he : 0 < e) :
    print_result_ops_field e 0 = "0 ops/sec" := by
  have h0 : ((0 : Nat) : ℚ) / e = 0 := by simp
  rw [print_result_ops_field, h0, Int.floor_zero]
  rfl

/-- Witness for the amended C7 at `elapsed = 2`. -/
theorem zero_ops_division_result_witness :
    (0 : ℚ) < 2 ∧ print_result_ops_field 2 0 = "0 ops/sec" :=
  ⟨by norm_num, zero_ops_division_result 2 (by norm_num)⟩

/-! ## Claim C8 -/

theorem mixedOpStep_batch (N : Nat) (rng : Nat → Nat) (i : Nat) (st : MixedState) :
    (mixedOpStep N rng i st).batch = st.batch ++ (mixedOpMut N rng i).toList := by
  rw [mixedOpStep]
  cases mixedOpMut N rng i with
  | none => simp
  | some m => rfl

theorem mixedOpStep_trace (N : Nat) (rng : Nat → Nat) (i : Nat) (st : MixedState) :
    (mixedOpStep N rng i st).trace = st.trace := by
  rw [mixedOpStep]
  cases mixedOpMut N rng i with
  | none => rfl
  | some m => rfl

/-- Loop invariant of the mixed workload: starting with at most 100 pending
mutations, the pending batch stays at most 100 between iterations, every
commit the loop issues carries exactly 101 mutations, and commits plus the
pending batch account for exactly the mutations the op sequence generates. -/
theorem mixedLoop_batching (N total : Nat) (rng : Nat → Nat) (ok : Nat → Bool) :
    ∀ (fuel i : Nat) (st : MixedState), total ≤ i + fuel →
      st.batch.length ≤ 100 →
      (mixedLoop N total rng ok fuel i st).batch.length ≤ 100 ∧
      (∃ new, (mixedLoop N total rng ok fuel i st).trace = st.trace ++ new ∧
        ∀ c ∈ new, c.muts.length = 101) ∧
      ((mixedLoop N total rng ok fuel i st).trace.map Commit.muts).join ++
          (mixedLoop N total rng ok fuel i st).batch =
        (st.trace.map Commit.muts).join ++ st.batch ++
          (List.range' i (total - i)).filterMap (mixedOpMut N rng) := by
  intro fuel
  induction fuel with
  | zero =>
    intro i st hfuel hb
    have h0 : total - i = 0 := by omega
    rw [mixedLoop, h0]
    exact ⟨hb, ⟨[], by simp, by simp⟩, by simp⟩
  | succ f ih =>
    intro i st hfuel hb
    by_cases hi : i < total
    · rw [mixedLoop, if_pos hi]
      have hb1 : (mixedOpStep N rng i st).batch.length ≤ 101 := by
        rw [mixedOpStep_batch]
        cases mixedOpMut N rng i with
        | none => simp; omega
        | some m => simp; omega
      have hstep : ∀ st2, st2 = mixedFlushCheck ok (mixedOpStep N rng i st) →
          st2.batch.length ≤ 100 ∧
          (∃ fl, st2.trace = st.trace ++ fl ∧ (∀ c ∈ fl, c.muts.length = 101) ∧
            (st2.trace.map Commit.muts).join ++ st2.batch =
              (st.trace.map Commit.muts).join ++ st.batch ++
                (mixedOpMut N rng i).toList) := by
        intro st2 hst2
        rw [mixedFlushCheck] at hst2
        by_cases h100 : 100 < (mixedOpStep N rng i st).batch.length
        · rw [if_pos h100] at hst2
          subst hst2
          refine ⟨by simp, ⟨[⟨(mixedOpStep N rng i st).batch, true⟩], ?_, ?_, ?_⟩⟩
          · simp [mixedOpStep_trace]
          · intro c hc
            simp at hc
            subst hc
            show (mixedOpStep N rng i st).batch.length = 101
            omega
          · simp [mixedOpStep_trace, mixedOpStep_batch]
        · rw [if_neg h100] at hst2
          subst hst2
          refine ⟨by omega, ⟨[], by simp [mixedOpStep_trace], by simp, ?_⟩⟩
          simp [mixedOpStep_trace, mixedOpStep_batch]
      obtain ⟨h2b, fl, h2t, h2f, h2j⟩ := hstep _ rfl
      obtain ⟨hrb, ⟨new, hrt, hrf⟩, hrj⟩ := ih (i + 1) _ (by omega) h2b
      refine ⟨hrb, ⟨fl ++ new, ?_, ?_⟩, ?_⟩
      · rw [hrt, h2t, List.append_assoc]
      · intro c hc
        rcases List.mem_append.1 hc with h | h
        · exact h2f c h
        · exact hrf c h
      · rw [hrj, h2j]
        have hrange : List.range' i (total - i) =
            i :: List.range' (i + 1) (total - (i + 1)) := by
          have h1 : total - i = (total - (i + 1)) + 1 := by omega
          rw [h1, List.range'_succ]
        rw [hrange]
        cases hmut : mixedOpMut N rng i with
        | none => simp [List.filterMap_cons, hmut]
        | some m => simp [List.filterMap_cons, hmut]
    · rw [mixedLoop, if_neg hi]
      have h0 : total - i = 0 := by omega
      rw [h0]
      exact ⟨hb, ⟨[], by simp, by simp⟩, by simp⟩

set_option maxRecDepth 100000 in
/-- Counterexample to C8: drive the mixed workload with a `rand` stream that
rolls a write on every op (`op = 70`).  After 100 ops — 100 accumulated
mutations — not a single commit has been issued yet (the flush condition is
`batch.Count() > 100`, not `≥ 100`): the claim's "flushed every 100
accumulated mutations" fails.  Over 102 ops the commits carry 101 and (from
the final flush) 1 mutations. -/
theorem mixed_flush_at_101_cex :
    (mixedLoop NUM_RECORDS 102 (fun t => if t % 2 = 1 then 70 else 0)
        (fun _ => true) 100 0 ⟨emptyStore, [], []⟩).trace = [] ∧
    (mixedLoop NUM_RECORDS 102 (fun t => if t % 2 = 1 then 70 else 0)
        (fun _ => true) 100 0 ⟨emptyStore, [], []⟩).batch.length = 100 ∧
    ((bench_mixed_workload NUM_RECORDS 102 (fun t => if t % 2 = 1 then 70 else 0)
        (fun _ => true) emptyStore).trace.map fun c => c.muts.length) = [101, 1] := by
  refine ⟨by decide, by decide, by decide⟩

/-- C8 amended: each op rolls the 3-way 70/20/10 read/write/delete choice;
writes and deletes accumulate into the shared batch, which is flushed each
time it *exceeds* 100 pending mutations (i.e. upon the 101st), plus a final
flush of any remainder; reads are never batched — the committed mutations
are exactly the generated write/delete sequence. -/
theorem mixed_batching_behavior (N total : Nat) (rng : Nat → Nat)
    (ok : Nat → Bool) (db : Store) :
    ((bench_mixed_workload N total rng ok db).trace.map Commit.muts).join =
      mixedMuts N rng total ∧
    ((bench_mixed_workload N total rng ok db).trace.dropLast.all
      fun c => c.muts.length == 101) = true ∧
    ((bench_mixed_workload N total rng ok db).trace.all
      fun c => decide (1 ≤ c.muts.length ∧ c.muts.length ≤ 101)) = true := by
  obtain ⟨hrb, ⟨new, hrt, hrf⟩, hrj⟩ :=
    mixedLoop_batching N total rng ok total 0 ⟨db, [], []⟩ (by omega) (by simp)
  have hmuts : ((mixedLoop N total rng ok total 0 ⟨db, [], []⟩).trace.map
      Commit.muts).join ++ (mixedLoop N total rng ok total 0 ⟨db, [], []⟩).batch =
      mixedMuts N rng total := by
    rw [hrj]
    simp [mixedMuts, List.range_eq_range']
  have htr : (mixedLoop N total rng ok total 0 ⟨db, [], []⟩).trace = new := by
    simpa using hrt
  rw [bench_mixed_workload]
  by_cases hb : 0 < (mixedLoop N total rng ok total 0 ⟨db, [], []⟩).batch.length
  · rw [if_pos hb]
    refine ⟨?_, ?_, ?_⟩
    · simp only [List.map_append, List.join_append, List.map_cons, List.map_nil,
        List.join_cons, List.join_nil, List.append_nil]
      exact hmuts
    · rw [List.dropLast_concat, htr]
      rw [List.all_eq_true]
      intro c hc
      simp [hrf c hc]
    · rw [List.all_eq_true]
      intro c hc
      rcases List.mem_append.1 hc with h | h
      · rw [htr] at h
        have := hrf c h
        simp [this]
      · simp at h
        subst h
        simp only [decide_eq_true_eq]
        omega
  · rw [if_neg hb]
    have hbe : (mixedLoop N total rng ok total 0 ⟨db, [], []⟩).batch = [] := by
      have : (mixedLoop N total rng ok total 0 ⟨db, [], []⟩).batch.length = 0 := by omega
      exact List.length_eq_zero.1 this
    refine ⟨?_, ?_, ?_⟩
    · rw [← hmuts, hbe, List.append_nil]
    · rw [List.all_eq_true]
      intro c hc
      have hc2 : c ∈ (mixedLoop N total rng ok total 0 ⟨db, [], []⟩).trace :=
        (List.dropLast_sublist _).subset hc
      rw [htr] at hc2
      simp [hrf c hc2]
    · rw [List.all_eq_true]
      intro c hc
      rw [htr] at hc
      have := hrf c hc
      simp only [decide_eq_true_eq]
      omega

/-! ## Claim C10 -/

theorem randomReadsLoop_store (N : Nat) (rng : Nat → Nat) :
    ∀ (n t : Nat) (db : Store), randomReadsLoop N rng n t db = db := by
  intro n
  induction n with
  | zero => intro t db; rfl
  | succ n ih => intro t db; exact ih (t + 1) db

theorem scanLoop_store (db : Store) :
    ∀ (entries : List (Key × String)) (count : Nat),
      (scanLoop db entries count).1 = db := by
  intro entries
  induction entries with
  | nil => intro count; rfl
  | cons e rest ih => intro count; exact ih (count + 1)

theorem existsChecksLoop_store (N : Nat) (rng : Nat → Nat) :
    ∀ (n t : Nat) (db : Store), existsChecksLoop N rng n t db = db := by
  intro n
  induction n with
  | zero => intro t db; rfl
  | succ n ih => intro t db; exact ih (t + 1) db

/-- C10: the random-read, sequential-scan, and exists-check workloads only
perform point lookups and forward iteration — no put, delete, or commit —
so each leaves the engine's key-value contents exactly as it found them,
from any starting state. -/
theorem read_workloads_preserve_store (N cr ce : Nat) (rngR rngE : Nat → Nat)
    (db : Store) (entries : List (Key × String)) :
    bench_random_reads N cr rngR db = db ∧
    (bench_sequential_scan db entries).1 = db ∧
    bench_exists_checks N ce rngE db = db :=
  ⟨randomReadsLoop_store N rngR cr 0 db, scanLoop_store db entries 0,
    existsChecksLoop_store N rngE ce 0 db⟩

end RocksBench
